import Mathlib

set_option maxRecDepth 8000

/-!
Verification of the numpy CLI front end (`src/__init__.py`).

The development shallowly embeds the pieces of the program that the claims
concern: the argument coercers (`matrix`, `intlist`, `int`, ...), the command
schema table (`functions`), the dispatcher loop of `main` (token processing,
keyword lookup, stdin fallback), the output formatter (`output` /
`numpy.savetxt`), the `help` command, and the stderr redirection.

Text is modelled as `List Char`; Python strings at API boundaries appear as
`String` (command and keyword names).  Numeric tokens are modelled as exact
rationals; the `%.8g` output format is modelled on integer values (where it is
exact for magnitudes below 10^8).
-/

/-! ## Exit codes (src/__init__.py lines 46-51) -/

def E_OK : Nat := 0
def E_NOARGS : Nat := 1
def E_FAILED : Nat := 2
def E_NOTFOUND : Nat := 3
def E_INVALID : Nat := 4

/-! ## Character and list-of-char utilities

These model the Python primitives used by the source: `str.split(sep)`,
`str.split()` (whitespace), `str.rstrip`, `str.strip`, `";".join(...)`. -/

/-- Python whitespace characters (as recognised by `str.split()` / `str.strip()`). -/
def isWS (c : Char) : Bool :=
  c = ' ' || c = '\t' || c = '\n' || c = '\r' || c = '\x0b' || c = '\x0c'

/-- Split a character list at every position satisfying `p`
(the splitting core of Python's `str.split(sep)`). -/
def splitOnP (p : Char → Bool) : List Char → List (List Char)
  | [] => [[]]
  | c :: cs =>
    if p c then [] :: splitOnP p cs
    else
      match splitOnP p cs with
      | [] => [[c]]
      | r :: rs => (c :: r) :: rs

/-- Python `s.split(c)` for a single-character separator. -/
def splitOnChar (c : Char) (s : List Char) : List (List Char) :=
  splitOnP (fun x => x = c) s

/-- Python `s.split()`: split on whitespace runs, discarding empty pieces. -/
def splitWS (s : List Char) : List (List Char) :=
  (splitOnP isWS s).filter (fun x => x ≠ [])

/-- Python `sep.join(parts)`. -/
def joinSep (sep : List Char) : List (List Char) → List Char
  | [] => []
  | [x] => x
  | x :: xs => x ++ sep ++ joinSep sep xs

/-- Python `s.rstrip(";")`: remove every trailing `';'`. -/
def rstripSemis (s : List Char) : List Char :=
  (s.reverse.dropWhile (fun c => c = ';')).reverse

/-- Python `s.strip()`: remove leading and trailing whitespace. -/
def stripWS (s : List Char) : List Char :=
  ((s.dropWhile isWS).reverse.dropWhile isWS).reverse

/-- Removal of `'['` and `']'` performed by numpy's matrix string parser. -/
def stripBrackets (s : List Char) : List Char :=
  s.filter (fun c => !(c = '[' || c = ']'))

/-! ## Decimal digits: formatting and parsing

`natChars` renders a natural in base 10 (the integer case of the `%.8g`
format used by `output`, exact for magnitudes below `10^8`); `charDigit`
and `valDigits` model reading decimal digit strings (the numeric-token case
of `ast.literal_eval` inside numpy's matrix string parser, and Python's
`int`). -/

def digitToChar (d : Nat) : Char :=
  match d with
  | 0 => '0' | 1 => '1' | 2 => '2' | 3 => '3' | 4 => '4'
  | 5 => '5' | 6 => '6' | 7 => '7' | 8 => '8' | _ => '9'

def charDigit (c : Char) : Option Nat :=
  if c = '0' then some 0 else if c = '1' then some 1 else if c = '2' then some 2
  else if c = '3' then some 3 else if c = '4' then some 4 else if c = '5' then some 5
  else if c = '6' then some 6 else if c = '7' then some 7 else if c = '8' then some 8
  else if c = '9' then some 9 else none

def allDigits (l : List Char) : Bool :=
  l.all (fun c => (charDigit c).isSome)

/-- Value of a digit string, accumulating left to right. -/
def valDigits : Nat → List Char → Nat
  | acc, [] => acc
  | acc, c :: cs => valDigits (10 * acc + (charDigit c).getD 0) cs

/-- Parse a non-empty all-digit string to a natural number. -/
def digitsValOpt (l : List Char) : Option Nat :=
  if l.isEmpty then none
  else if allDigits l then some (valDigits 0 l) else none

/-- Base-10 rendering, most significant digit first (fuelled recursion). -/
def natCharsAux : Nat → Nat → List Char
  | 0, _ => []
  | fuel + 1, n =>
    if n = 0 then [] else natCharsAux fuel (n / 10) ++ [digitToChar (n % 10)]

def natChars (n : Nat) : List Char :=
  if n = 0 then ['0'] else natCharsAux (n + 1) n

/-- Integer rendering: the `%.8g` output format restricted to integer values
(where it prints the plain decimal digits). -/
def fmtInt (z : Int) : List Char :=
  if z < 0 then '-' :: natChars z.natAbs else natChars z.natAbs

/-- Unsigned numeric literal: digits with an optional single `'.'`
(the decimal-literal grammar accepted by `ast.literal_eval`; scientific
notation is outside the modelled grammar, and no input in this development
uses it). -/
def parseUnsigned (s : List Char) : Option Rat :=
  match splitOnChar '.' s with
  | [ip] =>
    if ip.isEmpty then none
    else if allDigits ip then some ((valDigits 0 ip : Nat) : Rat) else none
  | [ip, fp] =>
    if ip.isEmpty && fp.isEmpty then none
    else if allDigits ip && allDigits fp then
      some (((valDigits 0 ip : Nat) : Rat) + ((valDigits 0 fp : Nat) : Rat) / (10 : Rat) ^ fp.length)
    else none
  | _ => none

/-- Signed numeric literal (`ast.literal_eval` on a numeric token). -/
def parseNum (s : List Char) : Option Rat :=
  match s with
  | [] => none
  | c :: rest =>
    if c = '-' then (parseUnsigned rest).map (fun q => -q)
    else if c = '+' then parseUnsigned rest
    else parseUnsigned s

/-- Python `int(s)`: strip whitespace, optional sign, non-empty digits. -/
def intCoerce (s : List Char) : Option Int :=
  match stripWS s with
  | [] => none
  | c :: rest =>
    if c = '-' then (digitsValOpt rest).map (fun n => -(n : Int))
    else if c = '+' then (digitsValOpt rest).map (fun n => (n : Int))
    else (digitsValOpt (c :: rest)).map (fun n => (n : Int))

/-- Python `float(s)` on plain decimal literals (strip whitespace, then the
signed decimal grammar; `inf`/`nan`/exponent forms are outside the modelled
grammar and unused by every claim). -/
def floatCoerce (s : List Char) : Option Rat :=
  parseNum (stripWS s)

/-! ## numpy matrix string parsing (numpy's `_convert_from_string`)

Rows split on `';'`; each row splits on `','`, each piece splits on
whitespace, and every resulting token is a numeric literal; all rows must
have the length of the first. -/

def parseRowM (row : List Char) : Option (List Rat) :=
  ((splitOnChar ',' row).flatMap splitWS).mapM parseNum

def convertFromString (s : List Char) : Option (List (List Rat)) :=
  match (splitOnChar ';' (stripBrackets s)).mapM parseRowM with
  | none => none
  | some [] => none
  | some (r :: rs) =>
    if rs.all (fun x => x.length = r.length) then some (r :: rs) else none

/-- The `matrix` coercer (src lines 70-76): try to parse the token itself
with trailing `';'` stripped; on failure treat the token as a URL, fetch
it, and parse the fetched content.  The network is modelled by the `fetch`
parameter (`none` = `urlopen` raised). -/
def matrixCoerce (fetch : List Char → Option (List Char)) (a : List Char) :
    Option (List (List Rat)) :=
  match convertFromString (rstripSemis a) with
  | some m => some m
  | none => (fetch a).bind convertFromString

/-- A fetch environment in which every URL request fails. -/
def noFetch : List Char → Option (List Char) := fun _ => none

/-- Trim at most ONE trailing `';'`.  Modelled from the claim's words (C6
says the token is parsed "with one trailing row separator ';' trimmed");
the source's `rstrip(";")` removes all of them.  Used only to compare the
claim against the source. -/
def trimOneSemi (s : List Char) : List Char :=
  match s.reverse with
  | ';' :: rest => rest.reverse
  | _ => s

/-- The matrix coercer as the claim C6 words it (one separator trimmed). -/
def matrixCoerceSpecOne (fetch : List Char → Option (List Char)) (a : List Char) :
    Option (List (List Rat)) :=
  match convertFromString (trimOneSemi a) with
  | some m => some m
  | none => (fetch a).bind convertFromString

/-! ## Coerced values and the argument coercers (src lines 67-110) -/

inductive Value where
  | int (z : Int)
  | rat (q : Rat)
  | str (s : List Char)
  | bool (b : Bool)
  | matrix (m : List (List Rat))
  | array (a : List Rat)
  | intlist (l : List Int)
  | boollist (l : List Bool)
  | tuplelist (l : List (List Int))
  | infinity (neg : Bool)
deriving DecidableEq

/-- The tag of each coercer named in the schema table. -/
inductive CoercerKind where
  | matrix | array | arrayorint | int | float | complex | str | bool
  | intlist | boollist | tuplelist | order
deriving DecidableEq

/-- Python `intlist(s)`: split on `','`, convert each piece with `int`. -/
def intlistCoerce (s : List Char) : Option (List Int) :=
  (splitOnChar ',' s).mapM intCoerce

/-- Apply a coercer to a text token; `none` models a raised exception.
`bool`/`boollist` model Python truthiness of strings (empty = falsy) and
never raise; `complex` is modelled on real-valued decimal literals (no
claim exercises complex syntax). -/
def applyCoercer (fetch : List Char → Option (List Char)) :
    CoercerKind → List Char → Option Value
  | .matrix, a => (matrixCoerce fetch a).map Value.matrix
  | .array, a => (convertFromString a).map (fun m => Value.array m.flatten)
  | .arrayorint, a =>
    match intCoerce a with
    | some z => some (Value.int z)
    | none => (convertFromString a).map (fun m => Value.array m.flatten)
  | .int, a => (intCoerce a).map Value.int
  | .float, a => (floatCoerce a).map Value.rat
  | .complex, a => (floatCoerce a).map Value.rat
  | .str, a => some (Value.str a)
  | .bool, a => some (Value.bool (!a.isEmpty))
  | .intlist, a => (intlistCoerce a).map Value.intlist
  | .boollist, a =>
    some (Value.boollist ((splitOnChar ',' a).map (fun p => !p.isEmpty)))
  | .tuplelist, a =>
    ((splitOnChar ',' a).mapM intlistCoerce).map Value.tuplelist
  | .order, a =>
    if a = "inf".data then some (Value.infinity false)
    else if a = "-inf".data then some (Value.infinity true)
    else
      match intCoerce a with
      | some z => some (Value.int z)
      | none => some (Value.str a)

/-! ## Command schema (src lines 112-1014)

A schema is the command's Python dict: key `""` (`POSITIONAL`) maps to the
ordered positional coercers or to the variadic handler `intlist_args`;
key `"**"` (`UARGS`) maps to a list of universal keyword names; any other
key maps to that keyword's coercer. -/

inductive SEntry where
  | pos (kinds : List CoercerKind)
  | varargs
  | uargs (names : List String)
  | kw (kind : CoercerKind)
deriving DecidableEq

abbrev Schema : Type := List (String × SEntry)

/-- Python dict lookup on an association list (keys are unique in the table). -/
def lookupA {α : Type} (l : List (String × α)) (k : String) : Option α :=
  match l with
  | [] => none
  | (k0, v) :: rest => if k0 = k then some v else lookupA rest k

/-- Python dict assignment `d[k] = v` (replace in place, else append). -/
def assocSet (l : List (String × Value)) (k : String) (v : Value) :
    List (String × Value) :=
  if l.any (fun p => p.1 = k) then
    l.map (fun p => if p.1 = k then (k, v) else p)
  else l ++ [(k, v)]

/-- The universal ufunc keyword coercers (src lines 118-127). -/
def UFUNC : List (String × CoercerKind) :=
  [("where", .boollist), ("axes", .tuplelist), ("axis", .intlist),
   ("keepdims", .bool), ("casting", .str), ("order", .str),
   ("dtype", .str), ("subok", .bool)]

/-- `UKEYS = list(UFUNC.keys())` (src line 128). -/
def UKEYS : List String := UFUNC.map Prod.fst

def functionsChunk0 : List (String × Schema) := [
  ("add", [("", .pos [.matrix, .matrix]), ("**", .uargs UKEYS)]),
  ("reciprocal", [("", .pos [.matrix]), ("**", .uargs UKEYS)]),
  ("positive", [("", .pos [.matrix]), ("**", .uargs UKEYS)]),
  ("negative", [("", .pos [.matrix]), ("**", .uargs UKEYS)]),
  ("multiply", [("", .pos [.matrix, .matrix]), ("**", .uargs UKEYS)]),
  ("divide", [("", .pos [.matrix, .matrix]), ("**", .uargs UKEYS)]),
  ("power", [("", .pos [.matrix, .matrix]), ("**", .uargs UKEYS)]),
  ("subtract", [("", .pos [.matrix, .matrix]), ("**", .uargs UKEYS)]),
  ("true_divide", [("", .pos [.matrix, .matrix]), ("**", .uargs UKEYS)]),
  ("floor_divide", [("", .pos [.matrix, .matrix]), ("**", .uargs UKEYS)])
]

def functionsChunk1 : List (String × Schema) := [
  ("float_power", [("", .pos [.matrix, .matrix]), ("**", .uargs UKEYS)]),
  ("fmod", [("", .pos [.matrix, .matrix]), ("**", .uargs UKEYS)]),
  ("mod", [("", .pos [.matrix, .matrix]), ("**", .uargs UKEYS)]),
  ("modf", [("", .pos [.matrix]), ("**", .uargs UKEYS)]),
  ("remainder", [("", .pos [.matrix, .matrix]), ("**", .uargs UKEYS)]),
  ("divmod", [("", .pos [.matrix, .matrix]), ("**", .uargs UKEYS)]),
  ("angle", [("", .pos [.matrix]), ("deg", .kw .bool)]),
  ("real", [("", .pos [.matrix])]),
  ("imag", [("", .pos [.matrix])]),
  ("conj", [("", .pos [.matrix]), ("**", .uargs UKEYS)])
]

def functionsChunk2 : List (String × Schema) := [
  ("conjugate", [("", .pos [.matrix]), ("**", .uargs UKEYS)]),
  ("convolve", [("", .pos [.array, .array]), ("mode", .kw .str)]),
  ("clip", [("", .pos [.matrix]), ("a_min", .kw .matrix), ("a_max", .kw .matrix), ("**", .uargs UKEYS)]),
  ("sqrt", [("", .pos [.matrix]), ("**", .uargs UKEYS)]),
  ("cbrt", [("", .pos [.matrix]), ("**", .uargs UKEYS)]),
  ("square", [("", .pos [.matrix]), ("**", .uargs UKEYS)]),
  ("absolute", [("", .pos [.matrix]), ("**", .uargs UKEYS)]),
  ("fabs", [("", .pos [.matrix]), ("**", .uargs UKEYS)]),
  ("sign", [("", .pos [.matrix]), ("**", .uargs UKEYS)]),
  ("heaviside", [("", .pos [.matrix, .matrix]), ("**", .uargs UKEYS)])
]

def functionsChunk3 : List (String × Schema) := [
  ("maximum", [("", .pos [.matrix, .matrix]), ("**", .uargs UKEYS)]),
  ("minimum", [("", .pos [.matrix, .matrix]), ("**", .uargs UKEYS)]),
  ("fmax", [("", .pos [.matrix, .matrix]), ("**", .uargs UKEYS)]),
  ("fmin", [("", .pos [.matrix, .matrix]), ("**", .uargs UKEYS)]),
  ("real_if_close", [("", .pos [.matrix]), ("tol", .kw .float)]),
  ("interp", [("", .pos [.array, .array, .array]), ("left", .kw .complex), ("right", .kw .complex), ("period", .kw .complex)]),
  ("sin", [("", .pos [.matrix]), ("**", .uargs UKEYS)]),
  ("cos", [("", .pos [.matrix]), ("**", .uargs UKEYS)]),
  ("tan", [("", .pos [.matrix]), ("**", .uargs UKEYS)]),
  ("arcsin", [("", .pos [.matrix]), ("**", .uargs UKEYS)])
]

def functionsChunk4 : List (String × Schema) := [
  ("arccos", [("", .pos [.matrix]), ("**", .uargs UKEYS)]),
  ("arctan", [("", .pos [.matrix]), ("**", .uargs UKEYS)]),
  ("hypot", [("", .pos [.matrix, .matrix]), ("**", .uargs UKEYS)]),
  ("arctan2", [("", .pos [.matrix, .matrix]), ("**", .uargs UKEYS)]),
  ("degrees", [("", .pos [.matrix]), ("**", .uargs UKEYS)]),
  ("radians", [("", .pos [.matrix]), ("**", .uargs UKEYS)]),
  ("unwrap", [("", .pos [.matrix]), ("discont", .kw .float), ("axis", .kw .int)]),
  ("deg2rad", [("", .pos [.matrix]), ("**", .uargs UKEYS)]),
  ("rad2deg", [("", .pos [.matrix]), ("**", .uargs UKEYS)]),
  ("sinh", [("", .pos [.matrix]), ("**", .uargs UKEYS)])
]

def functionsChunk5 : List (String × Schema) := [
  ("cosh", [("", .pos [.matrix]), ("**", .uargs UKEYS)]),
  ("tanh", [("", .pos [.matrix]), ("**", .uargs UKEYS)]),
  ("arcsinh", [("", .pos [.matrix]), ("**", .uargs UKEYS)]),
  ("arccosh", [("", .pos [.matrix]), ("**", .uargs UKEYS)]),
  ("arctanh", [("", .pos [.matrix]), ("**", .uargs UKEYS)]),
  ("around", [("", .pos [.matrix]), ("decimals", .kw .int)]),
  ("round_", [("", .pos [.matrix]), ("decimals", .kw .int)]),
  ("rint", [("", .pos [.matrix]), ("**", .uargs UKEYS)]),
  ("fix", [("", .pos [.matrix])]),
  ("floor", [("", .pos [.matrix]), ("**", .uargs UKEYS)])
]

def functionsChunk6 : List (String × Schema) := [
  ("ceil", [("", .pos [.matrix]), ("**", .uargs UKEYS)]),
  ("trunc", [("", .pos [.matrix]), ("**", .uargs UKEYS)]),
  ("prod", [("", .pos [.matrix]), ("initial", .kw .float), ("**", .uargs ["axis", "dtype", "keepdims", "where"])]),
  ("sum", [("", .pos [.matrix]), ("initial", .kw .float), ("**", .uargs ["axis", "dtype", "keepdims", "where"])]),
  ("nanprod", [("", .pos [.matrix]), ("initial", .kw .float), ("**", .uargs ["axis", "dtype", "keepdims", "where"])]),
  ("nansum", [("", .pos [.matrix]), ("initial", .kw .float), ("**", .uargs ["axis", "dtype", "keepdims", "where"])]),
  ("cumprod", [("", .pos [.matrix]), ("**", .uargs ["axis", "dtype"])]),
  ("cumsum", [("", .pos [.matrix]), ("**", .uargs ["axis", "dtype"])]),
  ("nancumprod", [("", .pos [.matrix]), ("**", .uargs ["axis", "dtype"])]),
  ("nancumsum", [("", .pos [.matrix]), ("**", .uargs ["axis", "dtype"])])
]

def functionsChunk7 : List (String × Schema) := [
  ("diff", [("", .pos [.matrix]), ("n", .kw .int), ("prepend", .kw .matrix), ("append", .kw .matrix), ("**", .uargs ["axis"])]),
  ("gradient", [("", .pos [.matrix]), ("spacing", .kw .matrix), ("axis", .kw .int), ("edge_order", .kw .int)]),
  ("cross", [("", .pos [.matrix, .matrix]), ("axisa", .kw .int), ("axisb", .kw .int), ("axisc", .kw .int), ("axis", .kw .int)]),
  ("trapz", [("", .pos [.matrix]), ("x", .kw .matrix), ("dx", .kw .float), ("axis", .kw .int)]),
  ("exp", [("", .pos [.matrix]), ("**", .uargs UKEYS)]),
  ("expm1", [("", .pos [.matrix]), ("**", .uargs UKEYS)]),
  ("exp2", [("", .pos [.matrix]), ("**", .uargs UKEYS)]),
  ("log", [("", .pos [.matrix]), ("**", .uargs UKEYS)]),
  ("log10", [("", .pos [.matrix]), ("**", .uargs UKEYS)]),
  ("log2", [("", .pos [.matrix]), ("**", .uargs UKEYS)])
]

def functionsChunk8 : List (String × Schema) := [
  ("log1p", [("", .pos [.matrix]), ("**", .uargs UKEYS)]),
  ("logaddexp", [("", .pos [.matrix, .matrix]), ("**", .uargs UKEYS)]),
  ("logaddexp2", [("", .pos [.matrix, .matrix]), ("**", .uargs UKEYS)]),
  ("i0", [("", .pos [.array])]),
  ("sinc", [("", .pos [.matrix])]),
  ("signbit", [("", .pos [.matrix]), ("**", .uargs UKEYS)]),
  ("copysign", [("", .pos [.matrix, .matrix]), ("**", .uargs UKEYS)]),
  ("frexp", [("", .pos [.matrix]), ("**", .uargs UKEYS)]),
  ("ldexp", [("", .pos [.matrix, .matrix]), ("**", .uargs UKEYS)]),
  ("nextafter", [("", .pos [.matrix, .matrix]), ("**", .uargs UKEYS)])
]

def functionsChunk9 : List (String × Schema) := [
  ("spacing", [("", .pos [.matrix]), ("**", .uargs UKEYS)]),
  ("lcm", [("", .pos [.matrix, .matrix]), ("**", .uargs UKEYS)]),
  ("gcd", [("", .pos [.matrix, .matrix]), ("**", .uargs UKEYS)]),
  ("eye", [("", .pos [.int]), ("M", .kw .int), ("k", .kw .int), ("dtype", .kw .str), ("order", .kw .str)]),
  ("identity", [("", .pos [.int]), ("dtype", .kw .str)]),
  ("ones", [("", .pos [.intlist]), ("dtype", .kw .str), ("order", .kw .str)]),
  ("dot", [("", .pos [.matrix, .matrix])]),
  ("savetxt", [("", .pos [.str, .matrix]), ("fmt", .kw .str), ("delimiter", .kw .str), ("newline", .kw .str), ("header", .kw .str), ("footer", .kw .str), ("comments", .kw .str), ("encoding", .kw .str)]),
  ("trace", [("", .pos [.matrix]), ("offset", .kw .int), ("axis", .kw .int), ("dtype", .kw .str)]),
  ("transpose", [("", .pos [.matrix])])
]

def functionsChunk10 : List (String × Schema) := [
  ("zeros", [("", .pos [.intlist]), ("dtype", .kw .str), ("order", .kw .str)]),
  ("linalg.cholesky", [("", .pos [.matrix])]),
  ("linalg.cond", [("", .pos [.matrix]), ("p", .kw .order)]),
  ("linalg.det", [("", .pos [.matrix])]),
  ("linalg.eig", [("", .pos [.matrix])]),
  ("linalg.eigh", [("", .pos [.matrix]), ("UPLO", .kw .str)]),
  ("linalg.eigvals", [("", .pos [.matrix])]),
  ("linalg.eigvalsh", [("", .pos [.matrix]), ("UPLO", .kw .str)]),
  ("linalg.inv", [("", .pos [.matrix])]),
  ("linalg.lstsq", [("", .pos [.matrix, .matrix]), ("rcond", .kw .float)])
]

def functionsChunk11 : List (String × Schema) := [
  ("linalg.matrix_rank", [("", .pos [.matrix])]),
  ("linalg.norm", [("", .pos [.matrix]), ("ord", .kw .order), ("axis", .kw .int), ("keepdims", .kw .bool)]),
  ("linalg.pinv", [("", .pos [.matrix])]),
  ("linalg.qr", [("", .pos [.matrix]), ("mode", .kw .str)]),
  ("linalg.slogdet", [("", .pos [.matrix])]),
  ("linalg.solve", [("", .pos [.matrix, .matrix])]),
  ("linalg.svd", [("", .pos [.matrix]), ("full_matrices", .kw .bool), ("compute_uv", .kw .bool), ("hermitian", .kw .bool)]),
  ("matlib.rand", [("", .varargs)]),
  ("matlib.randn", [("", .varargs)]),
  ("matlib.repmat", [("", .pos [.matrix, .int, .int])])
]

def functionsChunk12 : List (String × Schema) := [
  ("matrix.all", [("", .pos [.matrix]), ("axis", .kw .int)]),
  ("matrix.any", [("", .pos [.matrix]), ("axis", .kw .int)]),
  ("matrix.argmax", [("", .pos [.matrix]), ("axis", .kw .int)]),
  ("matrix.argmin", [("", .pos [.matrix]), ("axis", .kw .int)]),
  ("matrix.argpartition", [("", .pos [.matrix]), ("axis", .kw .int), ("kind", .kw .str), ("order", .kw .intlist)]),
  ("matrix.argsort", [("", .pos [.matrix]), ("axis", .kw .int), ("kind", .kw .str), ("order", .kw .intlist)]),
  ("matrix.astype", [("", .pos [.matrix]), ("order", .kw .str), ("casting", .kw .str), ("subok", .kw .bool)]),
  ("matrix.byteswap", [("", .pos [.matrix])]),
  ("matrix.choose", [("", .pos [.matrix, .intlist]), ("mode", .kw .str)]),
  ("matrix.clip", [("", .pos [.matrix]), ("min", .kw .float), ("max", .kw .float), ("**", .uargs UKEYS)])
]

def functionsChunk13 : List (String × Schema) := [
  ("matrix.compress", [("", .pos [.matrix])]),
  ("matrix.conj", [("", .pos [.matrix])]),
  ("matrix.conjugate", [("", .pos [.matrix])]),
  ("matrix.cumprod", [("", .pos [.matrix])]),
  ("matrix.cumsum", [("", .pos [.matrix])]),
  ("matrix.diagonal", [("", .pos [.matrix])]),
  ("matrix.dot", [("", .pos [.matrix])]),
  ("matrix.fill", [("", .pos [.matrix])]),
  ("matrix.flatten", [("", .pos [.matrix])]),
  ("matrix.getH", [("", .pos [.matrix])])
]

def functionsChunk14 : List (String × Schema) := [
  ("matrix.getI", [("", .pos [.matrix])]),
  ("matrix.getT", [("", .pos [.matrix])]),
  ("matrix.getfield", [("", .pos [.matrix])]),
  ("matrix.item", [("", .pos [.matrix])]),
  ("matrix.itemset", [("", .pos [.matrix])]),
  ("matrix.max", [("", .pos [.matrix])]),
  ("matrix.mean", [("", .pos [.matrix])]),
  ("matrix.min", [("", .pos [.matrix])]),
  ("matrix.nonzero", [("", .pos [.matrix])]),
  ("matrix.partition", [("", .pos [.matrix])])
]

def functionsChunk15 : List (String × Schema) := [
  ("matrix.prod", [("", .pos [.matrix])]),
  ("matrix.ptp", [("", .pos [.matrix])]),
  ("matrix.put", [("", .pos [.matrix])]),
  ("matrix.ravel", [("", .pos [.matrix])]),
  ("matrix.repeat", [("", .pos [.matrix])]),
  ("matrix.reshape", [("", .pos [.matrix])]),
  ("matrix.resize", [("", .pos [.matrix])]),
  ("matrix.round", [("", .pos [.matrix])]),
  ("matrix.searchsorted", [("", .pos [.matrix])]),
  ("matrix.setfield", [("", .pos [.matrix])])
]

def functionsChunk16 : List (String × Schema) := [
  ("matrix.sort", [("", .pos [.matrix])]),
  ("matrix.squeeze", [("", .pos [.matrix])]),
  ("matrix.std", [("", .pos [.matrix])]),
  ("matrix.sum", [("", .pos [.matrix])]),
  ("matrix.swapaxes", [("", .pos [.matrix])]),
  ("matrix.take", [("", .pos [.matrix])]),
  ("matrix.trace", [("", .pos [.matrix])]),
  ("matrix.transpose", [("", .pos [.matrix])]),
  ("matrix.var", [("", .pos [.matrix])]),
  ("random.normal", [("", .pos []), ("loc", .kw .matrix), ("scale", .kw .matrix), ("size", .kw .intlist)])
]

def functionsChunk17 : List (String × Schema) := [
  ("random.rand", [("", .varargs)]),
  ("random.randn", [("", .varargs)]),
  ("random.randint", [("", .pos [.int]), ("high", .kw .int), ("size", .kw .intlist), ("dtype", .kw .str)]),
  ("random.random_sample", [("", .pos []), ("size", .kw .intlist)]),
  ("random.random", [("", .pos []), ("size", .kw .intlist)]),
  ("random.ranf", [("", .pos []), ("size", .kw .intlist)]),
  ("random.sample", [("", .pos []), ("size", .kw .intlist)]),
  ("random.choice", [("", .pos [.arrayorint]), ("size", .kw .intlist), ("replace", .kw .bool), ("p", .kw .array)])
]

/-- The full command schema table (src lines 129-1014), assembled in source order. -/
def functions : List (String × Schema) :=
  functionsChunk0 ++ functionsChunk1 ++ functionsChunk2 ++ functionsChunk3 ++ functionsChunk4 ++ functionsChunk5 ++ functionsChunk6 ++ functionsChunk7 ++ functionsChunk8 ++ functionsChunk9 ++ functionsChunk10 ++ functionsChunk11 ++ functionsChunk12 ++ functionsChunk13 ++ functionsChunk14 ++ functionsChunk15 ++ functionsChunk16 ++ functionsChunk17


/-- Schema lookup for a command name (`functions[name]`). -/
def schemaOf (name : String) : Option Schema := lookupA functions name


/-! ## The dispatcher (src `main`, lines 1229-1265)

`procTokens` is the token loop (lines 1240-1250): a token without `=` is
positional; a token with `=` is split on every `=` (Python `split` with no
limit), the first segment is looked up in the schema dict (`KeyError`
propagates to the blanket handler, exit `E_FAILED`), and the SECOND
segment alone is coerced.  `fillAux` is the stdin fallback loop (lines
1251-1257): while positionals are missing, fail with `E_INVALID` on an
interactive terminal, otherwise re-read stdin (all lines on the first
read, nothing afterwards), join with `';'`, and coerce into the next slot.
`none` from a coercer models a raised exception (caught at line 1267,
exit `E_FAILED`). -/

inductive ProcResult where
  | cont (pos : Nat) (args : List Value) (kwargs : List (String × Value))
  | stop (code : Nat)
deriving DecidableEq

/-- Applying the object found by `function[spec[0]]` to the value text:
only a declared keyword coercer is callable; the `POSITIONAL` list or the
`UARGS` name list raises `TypeError` (modelled as `none`). -/
def applyEntry (fetch : List Char → Option (List Char)) :
    SEntry → List Char → Option Value
  | .kw c, v => applyCoercer fetch c v
  | _, _ => none

def procTokens (schema : Schema) (kinds : List CoercerKind)
    (fetch : List Char → Option (List Char)) :
    List (List Char) → Nat → List Value → List (String × Value) → ProcResult
  | [], pos, args, kwargs => .cont pos args kwargs
  | t :: ts, pos, args, kwargs =>
    match splitOnChar '=' t with
    | [] => .stop E_FAILED
    | [_] =>
      match kinds[pos]? with
      | none => .stop E_INVALID
      | some k =>
        match applyCoercer fetch k t with
        | none => .stop E_FAILED
        | some v => procTokens schema kinds fetch ts (pos + 1) (args ++ [v]) kwargs
    | k :: v1 :: _ =>
      match lookupA schema (String.mk k) with
      | none => .stop E_FAILED
      | some ent =>
        match applyEntry fetch ent v1 with
        | none => .stop E_FAILED
        | some v => procTokens schema kinds fetch ts pos args (assocSet kwargs (String.mk k) v)

/-- The stdin fallback loop; the fuel is the number of missing positional
slots (`len(function[POSITIONAL]) - len(args)`), `consumed` records
whether `sys.stdin.readlines()` has already drained stdin. -/
def fillAux (kinds : List CoercerKind) (fetch : List Char → Option (List Char))
    (atty : Bool) (lines : List (List Char)) :
    Nat → Nat → List Value → Bool → List Value ⊕ Nat
  | 0, _, args, _ => Sum.inl args
  | fuel + 1, pos, args, consumed =>
    if atty then Sum.inr E_INVALID
    else
      match kinds[pos]? with
      | none => Sum.inr E_FAILED
      | some k =>
        let data := if consumed then [] else lines
        match applyCoercer fetch k (joinSep [';'] data) with
        | none => Sum.inr E_FAILED
        | some v => fillAux kinds fetch atty lines fuel (pos + 1) (args ++ [v]) true

/-- Filling every remaining slot by coercing the empty string: what the
fill loop does once stdin is drained.  Used to state the corrected C5. -/
def fillFromEmpty (kinds : List CoercerKind) (fetch : List Char → Option (List Char)) :
    Nat → Nat → List Value → List Value ⊕ Nat
  | 0, _, args => Sum.inl args
  | fuel + 1, pos, args =>
    match kinds[pos]? with
    | none => Sum.inr E_FAILED
    | some k =>
      match applyCoercer fetch k [] with
      | none => Sum.inr E_FAILED
      | some v => fillFromEmpty kinds fetch fuel (pos + 1) (args ++ [v])

inductive DResult where
  | ok (args : List Value) (kwargs : List (String × Value))
  | err (code : Nat)
deriving DecidableEq

/-- Argument assembly for one command (src lines 1229-1257): variadic
schemas coerce all tokens with `int`; fixed schemas run the token loop and
then the stdin fallback.  `.ok` means `main` proceeds to invoke the
library callable with these arguments; `.err` means it never does. -/
def dispatchArgs (schema : Schema) (fetch : List Char → Option (List Char))
    (atty : Bool) (lines : List (List Char)) (tokens : List (List Char)) : DResult :=
  match lookupA schema "" with
  | some .varargs =>
    if tokens.isEmpty then .ok [] []
    else
      match tokens.mapM intCoerce with
      | some zs => .ok (zs.map Value.int) []
      | none => .err E_FAILED
  | some (.pos kinds) =>
    match procTokens schema kinds fetch tokens 0 [] [] with
    | .stop c => .err c
    | .cont pos args kwargs =>
      match fillAux kinds fetch atty lines (kinds.length - args.length) pos args false with
      | Sum.inr c => .err c
      | Sum.inl args2 => .ok args2 kwargs
  | _ => .err E_FAILED

/-! ## Runtime configuration and the output formatter (src lines 1017-1046)

`output` on a list result calls `numpy.savetxt(stdout, rows, fmt=config.format,
delimiter=",", newline=config.newline)`, which writes, per row, the fields
rendered with the number format and joined by the delimiter, followed by the
record terminator.  The per-number format is a parameter (`config.format`,
default `"%.8g"`); `fmtInt` is its integer-valued case. -/

structure Config where
  warning : Bool
  quiet : Bool
  debug : Bool
  exception : Bool
  newline : List Char
deriving DecidableEq

/-- Startup defaults (src lines 1019-1025). -/
def defaultConfig : Config :=
  { warning := true, quiet := false, debug := false, exception := false,
    newline := ['\n'] }

/-- The `-f`/`--flatten` flag (src lines 1187-1189): set the record
terminator to `';'`. -/
def applyFlattenFlag (c : Config) : Config := { c with newline := [';'] }

/-- One formatted output row: fields joined by the fixed `","` delimiter. -/
def rowChars (fmtNum : Int → List Char) (r : List Int) : List Char :=
  joinSep [','] (r.map fmtNum)

/-- `numpy.savetxt` on a list of rows: each row's fields joined by `","`,
then the record terminator. -/
def outputList (fmtNum : Int → List Char) (nl : List Char)
    (m : List (List Int)) : List Char :=
  (m.map (fun r => rowChars fmtNum r ++ nl)).flatten

/-- The records of an output text: split on the terminator, dropping the
piece after the final terminator. -/
def recordsOf (nl : Char) (text : List Char) : List (List Char) :=
  (splitOnChar nl text).dropLast

/-! ## The `help` command (src `help` lines 1114-1167, `main` lines 1205-1213)

`help(name)`: a known command prints its usage (after reassigning
`sys.stderr` to `sys.stdout`); the inner `if not name in functions.keys()`
check is dead.  Any other argument prints the general usage and the command
list filtered by `re.search(name, ...)`; the default pattern is `'.*'`.
Regex search is modelled on the patterns actually constructed: `'.*'`
matches everything, and a metacharacter-free pattern matches by substring
(the sorted print order is elided: only which commands are listed matters
here). -/

def containsSub (s p : List Char) : Bool :=
  match s with
  | [] => p.isEmpty
  | _ :: rest => p.isPrefixOf s || containsSub rest p

def reSearch (pattern s : List Char) : Bool :=
  pattern = ".*".data || containsSub s pattern

def isKnown (name : String) : Bool :=
  (functions.map Prod.fst).contains name

/-- Command names printed by the general-usage listing for a pattern. -/
def helpCommandNames (pattern : List Char) : List String :=
  (functions.map Prod.fst).filter (fun f => reSearch pattern f.data)

inductive HelpOut where
  | cmdHelp (name : String)
  | listing (names : List String)
  | invalid
deriving DecidableEq

/-- `main`'s handling of `numpy help ...` given the tokens after `help`
(lines 1205-1213), composed with `help` itself (lines 1114-1167): the
result is the exit code and what gets printed.  The known-command branch
keeps the dead not-found check exactly as written (line 1116-1117). -/
def runHelpCmd : List String → Nat × HelpOut
  | [] => (E_OK, .listing (helpCommandNames ".*".data))
  | [a] =>
    if isKnown a then
      if !isKnown a then (E_NOTFOUND, .invalid)
      else (E_OK, .cmdHelp a)
    else (E_OK, .listing (helpCommandNames a.data))
  | _ => (E_INVALID, .invalid)

/-! ## Process output streams (for C10)

`sys.stdout` / `sys.stderr` are modelled as message lists plus a flag
recording whether `sys.stderr` has been rebound to `sys.stdout` (which is
what `help` does for a known command, line 1118).  `warning`, `error` and
`debug` (lines 1048-1062) print to whatever `sys.stderr` currently
denotes. -/

structure Proc where
  out : List (List Char)
  err : List (List Char)
  errIsOut : Bool
deriving DecidableEq

def printOut (p : Proc) (m : List Char) : Proc :=
  { p with out := p.out ++ [m] }

/-- `print(..., file=sys.stderr)`: lands on stdout once stderr is rebound. -/
def printErrStream (p : Proc) (m : List Char) : Proc :=
  if p.errIsOut then { p with out := p.out ++ [m] }
  else { p with err := p.err ++ [m] }

def warningMsg (cfg : Config) (p : Proc) (m : List Char) : Proc :=
  if cfg.warning then printErrStream p m else p

def errorMsg (cfg : Config) (p : Proc) (m : List Char) : Proc :=
  if !cfg.quiet then printErrStream p m else p

def debugMsg (cfg : Config) (p : Proc) (m : List Char) : Proc :=
  if cfg.debug then printErrStream p m else p

/-- `help(name)` for a KNOWN command name (src lines 1115-1136): rebind
stderr to stdout, print the usage line, then print the callable's
docstring (`docOf` supplies the library docstring). -/
def helpKnown (docOf : String → List Char) (name : String) (p : Proc) : Proc :=
  let p1 : Proc := { p with errIsOut := true }
  printOut (printOut p1 ("numpy ".data ++ name.data)) (docOf name)

/-! ## Concrete schemas and environments used by the witnesses -/

/-- The `"add"` entry of the table. -/
def addSchema : Schema := [("", .pos [.matrix, .matrix]), ("**", .uargs UKEYS)]

/-- The `"matlib.repmat"` entry of the table. -/
def repmatSchema : Schema := [("", .pos [.matrix, .int, .int])]

/-- The `"transpose"` entry of the table. -/
def transposeSchema : Schema := [("", .pos [.matrix])]

/-- The `"savetxt"` entry of the table. -/
def savetxtSchema : Schema :=
  [("", .pos [.str, .matrix]), ("fmt", .kw .str), ("delimiter", .kw .str),
   ("newline", .kw .str), ("header", .kw .str), ("footer", .kw .str),
   ("comments", .kw .str), ("encoding", .kw .str)]

/-- A fetch environment in which every URL yields the text `"9"`. -/
def fetchNine : List Char → Option (List Char) := fun _ => some "9".data

/-- No library docstrings (for the help model). -/
def docNone : String → List Char := fun _ => []

/-- Fresh process streams. -/
def procInit : Proc := { out := [], err := [], errIsOut := false }

/-- `help(name)` as called by `main` (src lines 1114-1167): the known-command
branch (with its dead not-found check) rebinds stderr and prints the usage
and docstring; otherwise the general usage plus the filtered command list is
printed to stdout. -/
def helpRun (docOf : String → List Char) (name : String) (p : Proc) : Proc :=
  if isKnown name then
    if !isKnown name then p
    else helpKnown docOf name p
  else
    (helpCommandNames name.data).foldl (fun q f => printOut q f.data)
      (printOut p "Syntax: numpy [options] [command] [arguments]".data)

/-! ## Splitting and joining lemmas -/

theorem splitOnP_ne_nil (p : Char → Bool) (s : List Char) : splitOnP p s ≠ [] := by
  cases s with
  | nil => simp [splitOnP]
  | cons c cs =>
    simp only [splitOnP]
    split
    · simp
    · split <;> simp

theorem splitOnP_of_forall_not (p : Char → Bool) (s : List Char)
    (h : ∀ c ∈ s, ¬ p c = true) : splitOnP p s = [s] := by
  induction s with
  | nil => rfl
  | cons c cs ih =>
    have hc : ¬ p c = true := h c (List.mem_cons_self c cs)
    have hrest : splitOnP p cs = [cs] := ih (fun x hx => h x (List.mem_cons_of_mem c hx))
    simp only [splitOnP, if_neg hc, hrest]

theorem splitOnP_append_sep (p : Char → Bool) (d : Char) (hd : p d = true)
    (s t : List Char) (hs : ∀ c ∈ s, ¬ p c = true) :
    splitOnP p (s ++ d :: t) = s :: splitOnP p t := by
  induction s with
  | nil => simp [splitOnP, hd]
  | cons c cs ih =>
    have hc : ¬ p c = true := hs c (List.mem_cons_self c cs)
    have hrest := ih (fun x hx => hs x (List.mem_cons_of_mem c hx))
    simp only [List.cons_append, splitOnP, if_neg hc, List.append_eq, hrest]

theorem mem_joinSep (sep : List Char) (c : Char) :
    ∀ (xss : List (List Char)), c ∈ joinSep sep xss →
      c ∈ sep ∨ ∃ xs ∈ xss, c ∈ xs := by
  intro xss
  induction xss with
  | nil => intro h; simp [joinSep] at h
  | cons x xs ih =>
    intro h
    cases xs with
    | nil =>
      right
      exact ⟨x, List.mem_cons_self x [], by simpa [joinSep] using h⟩
    | cons y ys =>
      simp only [joinSep, List.append_assoc, List.mem_append] at h
      rcases h with h | h | h
      · exact Or.inr ⟨x, List.mem_cons_self x _, h⟩
      · exact Or.inl h
      · rcases ih h with h2 | ⟨xs, hxs, hc⟩
        · exact Or.inl h2
        · exact Or.inr ⟨xs, List.mem_cons_of_mem x hxs, hc⟩

theorem splitOnP_joinSep (p : Char → Bool) (d : Char) (hd : p d = true) :
    ∀ (xss : List (List Char)), xss ≠ [] →
      (∀ xs ∈ xss, ∀ c ∈ xs, ¬ p c = true) →
      splitOnP p (joinSep [d] xss) = xss := by
  intro xss
  induction xss with
  | nil => intro h; exact absurd rfl h
  | cons x xs ih =>
    intro _ hfree
    cases xs with
    | nil =>
      simpa [joinSep] using
        splitOnP_of_forall_not p x (hfree x (List.mem_cons_self x []))
    | cons y ys =>
      have hx : ∀ c ∈ x, ¬ p c = true := hfree x (List.mem_cons_self x _)
      have hrest : splitOnP p (joinSep [d] (y :: ys)) = y :: ys :=
        ih (by simp) (fun xs hxs => hfree xs (List.mem_cons_of_mem x hxs))
      calc splitOnP p (joinSep [d] (x :: y :: ys))
          = splitOnP p (x ++ d :: joinSep [d] (y :: ys)) := by
            simp [joinSep, List.append_assoc]
        _ = x :: splitOnP p (joinSep [d] (y :: ys)) :=
            splitOnP_append_sep p d hd x _ hx
        _ = x :: y :: ys := by rw [hrest]

theorem splitOnP_join_terminated (p : Char → Bool) (d : Char) (hd : p d = true) :
    ∀ (xss : List (List Char)),
      (∀ xs ∈ xss, ∀ c ∈ xs, ¬ p c = true) →
      splitOnP p ((xss.map (fun xs => xs ++ [d])).flatten) = xss ++ [[]] := by
  intro xss
  induction xss with
  | nil => intro _; rfl
  | cons x xs ih =>
    intro hfree
    have hx : ∀ c ∈ x, ¬ p c = true := hfree x (List.mem_cons_self x _)
    have hrest := ih (fun xs hxs => hfree xs (List.mem_cons_of_mem x hxs))
    calc splitOnP p (((x :: xs).map (fun xs => xs ++ [d])).flatten)
        = splitOnP p (x ++ d :: (xs.map (fun xs => xs ++ [d])).flatten) := by
          simp [List.append_assoc]
      _ = x :: splitOnP p ((xs.map (fun xs => xs ++ [d])).flatten) :=
          splitOnP_append_sep p d hd x _ hx
      _ = (x :: xs) ++ [[]] := by rw [hrest]; rfl

theorem flatMap_eq_self {α : Type} (f : List α → List (List α)) :
    ∀ (l : List (List α)), (∀ x ∈ l, f x = [x]) → l.flatMap f = l := by
  intro l
  induction l with
  | nil => intro _; rfl
  | cons x xs ih =>
    intro h
    simp only [List.flatMap_cons, h x (List.mem_cons_self x _),
      ih (fun y hy => h y (List.mem_cons_of_mem x hy))]
    rfl

theorem mapM_map_eq_some {α β γ : Type} (f : β → Option γ) (g : α → β) (h : α → γ) :
    ∀ (l : List α), (∀ x ∈ l, f (g x) = some (h x)) →
      (l.map g).mapM f = some (l.map h) := by
  intro l
  induction l with
  | nil => intro _; rfl
  | cons x xs ih =>
    intro hl
    simp only [List.map_cons, List.mapM_cons, hl x (List.mem_cons_self x _),
      ih (fun y hy => hl y (List.mem_cons_of_mem x hy)), Option.bind_eq_bind,
      Option.some_bind]
    rfl

/-! ## Digit-rendering lemmas -/

theorem charDigit_digitToChar (d : Nat) (hd : d < 10) :
    charDigit (digitToChar d) = some d := by
  interval_cases d <;> decide

theorem digitToChar_facts (d : Nat) (hd : d < 10) :
    isWS (digitToChar d) = false ∧ digitToChar d ≠ ',' ∧ digitToChar d ≠ ';' ∧
    digitToChar d ≠ '.' ∧ digitToChar d ≠ '-' ∧ digitToChar d ≠ '+' ∧
    digitToChar d ≠ '\n' ∧ digitToChar d ≠ '=' := by
  interval_cases d <;> decide

theorem natCharsAux_mem (fuel : Nat) :
    ∀ n, ∀ c ∈ natCharsAux fuel n, ∃ d, d < 10 ∧ c = digitToChar d := by
  induction fuel with
  | zero => intro n c hc; simp [natCharsAux] at hc
  | succ fuel ih =>
    intro n c hc
    by_cases h0 : n = 0
    · simp [natCharsAux, h0] at hc
    · simp only [natCharsAux, if_neg h0, List.mem_append, List.mem_singleton] at hc
      rcases hc with hc | hc
      · exact ih _ c hc
      · exact ⟨n % 10, Nat.mod_lt _ (by norm_num), hc⟩

theorem valDigits_append (xs : List Char) :
    ∀ (acc : Nat) (ys : List Char),
      valDigits acc (xs ++ ys) = valDigits (valDigits acc xs) ys := by
  induction xs with
  | nil => intro acc ys; rfl
  | cons c cs ih => intro acc ys; simp only [List.cons_append, valDigits, List.append_eq, ih]

theorem valDigits_natCharsAux (fuel : Nat) :
    ∀ n acc, n ≤ fuel →
      valDigits acc (natCharsAux fuel n) =
        acc * 10 ^ (natCharsAux fuel n).length + n := by
  induction fuel with
  | zero =>
    intro n acc h
    interval_cases n
    simp [natCharsAux, valDigits]
  | succ fuel ih =>
    intro n acc h
    by_cases h0 : n = 0
    · simp [natCharsAux, h0, valDigits]
    · have hdiv : n / 10 ≤ fuel :=
        Nat.lt_succ_iff.mp
          (Nat.lt_of_lt_of_le (Nat.div_lt_self (Nat.pos_of_ne_zero h0) (by norm_num)) h)
      simp only [natCharsAux, if_neg h0]
      rw [valDigits_append, ih (n / 10) acc hdiv]
      simp only [valDigits, charDigit_digitToChar (n % 10) (Nat.mod_lt _ (by norm_num)),
        Option.getD_some, List.length_append, List.length_singleton]
      rw [pow_succ]
      have hmod := Nat.div_add_mod n 10
      ring_nf
      omega

theorem natChars_ne_nil (n : Nat) : natChars n ≠ [] := by
  unfold natChars
  split
  · simp
  · rename_i h0
    simp only [natCharsAux, if_neg h0]
    simp

theorem natChars_mem (n : Nat) :
    ∀ c ∈ natChars n, ∃ d, d < 10 ∧ c = digitToChar d := by
  unfold natChars
  split
  · intro c hc
    simp at hc
    exact ⟨0, by norm_num, hc⟩
  · exact natCharsAux_mem (n + 1) n

theorem valDigits_natChars (n : Nat) : valDigits 0 (natChars n) = n := by
  unfold natChars
  split
  · rename_i h0; simp [valDigits, charDigit, h0]
  · rw [valDigits_natCharsAux (n + 1) n 0 (Nat.le_succ n)]
    simp

theorem allDigits_natChars (n : Nat) : allDigits (natChars n) = true := by
  unfold allDigits
  rw [List.all_eq_true]
  intro c hc
  obtain ⟨d, hd, rfl⟩ := natChars_mem n c hc
  rw [charDigit_digitToChar d hd]
  rfl

theorem digitsValOpt_natChars (n : Nat) : digitsValOpt (natChars n) = some n := by
  unfold digitsValOpt
  rw [if_neg (by simpa [List.isEmpty_iff] using natChars_ne_nil n),
    if_pos (allDigits_natChars n), valDigits_natChars n]

/-! ## Number parse/format round trip -/

theorem splitOnChar_natChars_dot (n : Nat) :
    splitOnChar '.' (natChars n) = [natChars n] := by
  apply splitOnP_of_forall_not
  intro c hc
  obtain ⟨d, hd, rfl⟩ := natChars_mem n c hc
  simpa using (digitToChar_facts d hd).2.2.2.1

theorem parseUnsigned_natChars (n : Nat) :
    parseUnsigned (natChars n) = some ((n : Nat) : Rat) := by
  unfold parseUnsigned
  rw [splitOnChar_natChars_dot n]
  show (if (natChars n).isEmpty = true then none
        else if allDigits (natChars n) = true then some ((valDigits 0 (natChars n) : Nat) : Rat)
        else none) = some ((n : Nat) : Rat)
  rw [if_neg (by simpa [List.isEmpty_iff] using natChars_ne_nil n),
    if_pos (allDigits_natChars n), valDigits_natChars n]

theorem parseNum_fmtInt (z : Int) : parseNum (fmtInt z) = some ((z : Int) : Rat) := by
  by_cases hz : z < 0
  · have h0 : fmtInt z = '-' :: natChars z.natAbs := if_pos hz
    rw [h0]
    show (if '-' = '-' then (parseUnsigned (natChars z.natAbs)).map (fun q => -q)
          else if '-' = '+' then parseUnsigned (natChars z.natAbs)
          else parseUnsigned ('-' :: natChars z.natAbs)) = some ((z : Int) : Rat)
    rw [if_pos rfl, parseUnsigned_natChars]
    show some (-((z.natAbs : Nat) : Rat)) = some ((z : Int) : Rat)
    congr 1
    rw [Int.cast_natAbs, abs_of_neg (by exact_mod_cast hz)]
    push_cast
    ring
  · have h0 : fmtInt z = natChars z.natAbs := if_neg hz
    obtain ⟨c, cs, hcc⟩ := List.exists_cons_of_ne_nil (natChars_ne_nil z.natAbs)
    obtain ⟨d, hd, hcd⟩ := natChars_mem z.natAbs c (hcc ▸ List.mem_cons_self c cs)
    subst hcd
    have hfacts := digitToChar_facts d hd
    rw [h0, hcc]
    show (if digitToChar d = '-' then (parseUnsigned cs).map (fun q => -q)
          else if digitToChar d = '+' then parseUnsigned cs
          else parseUnsigned (digitToChar d :: cs)) = some ((z : Int) : Rat)
    rw [if_neg hfacts.2.2.2.2.1, if_neg hfacts.2.2.2.2.2.1, ← hcc, parseUnsigned_natChars]
    congr 1
    rw [Int.cast_natAbs, abs_of_nonneg (by exact_mod_cast not_lt.mp hz)]

/-! ## Row format/parse lemmas -/

theorem fmtInt_chars (z : Int) :
    ∀ c ∈ fmtInt z, c = '-' ∨ ∃ d, d < 10 ∧ c = digitToChar d := by
  unfold fmtInt
  split
  · intro c hc
    rcases List.mem_cons.mp hc with h | h
    · exact Or.inl h
    · exact Or.inr (natChars_mem _ c h)
  · intro c hc
    exact Or.inr (natChars_mem _ c hc)

theorem fmtInt_good (z : Int) :
    ∀ c ∈ fmtInt z, isWS c = false ∧ c ≠ ',' ∧ c ≠ ';' ∧ c ≠ '\n' := by
  intro c hc
  rcases fmtInt_chars z c hc with rfl | ⟨d, hd, rfl⟩
  · refine ⟨by decide, by decide, by decide, by decide⟩
  · have h := digitToChar_facts d hd
    exact ⟨h.1, h.2.1, h.2.2.1, h.2.2.2.2.2.2.1⟩

theorem fmtInt_ne_nil (z : Int) : fmtInt z ≠ [] := by
  unfold fmtInt
  split
  · simp
  · exact natChars_ne_nil _

theorem splitWS_of_solid (s : List Char) (hne : s ≠ [])
    (h : ∀ c ∈ s, isWS c = false) : splitWS s = [s] := by
  unfold splitWS
  rw [splitOnP_of_forall_not isWS s (by intro c hc; simp [h c hc])]
  simp [hne]

theorem mem_rowChars (fmtNum : Int → List Char) (r : List Int) (c : Char)
    (hc : c ∈ rowChars fmtNum r) : c = ',' ∨ ∃ z ∈ r, c ∈ fmtNum z := by
  rcases mem_joinSep [','] c (r.map fmtNum) hc with h | ⟨xs, hxs, hcx⟩
  · exact Or.inl (List.mem_singleton.mp h)
  · obtain ⟨z, hz, rfl⟩ := List.mem_map.mp hxs
    exact Or.inr ⟨z, hz, hcx⟩

theorem parseRowM_rowChars (r : List Int) :
    parseRowM (rowChars fmtInt r) = some (r.map (fun z => ((z : Int) : Rat))) := by
  cases r with
  | nil => rfl
  | cons a as =>
    unfold parseRowM
    have hsplit : splitOnChar ',' (rowChars fmtInt (a :: as)) =
        (a :: as).map fmtInt := by
      unfold rowChars
      apply splitOnP_joinSep _ ',' (by simp) _ (by simp)
      intro xs hxs c hcx
      obtain ⟨z, _, rfl⟩ := List.mem_map.mp hxs
      simp [(fmtInt_good z c hcx).2.1]
    rw [hsplit]
    rw [flatMap_eq_self splitWS ((a :: as).map fmtInt) (by
      intro xs hxs
      obtain ⟨z, _, rfl⟩ := List.mem_map.mp hxs
      exact splitWS_of_solid (fmtInt z) (fmtInt_ne_nil z)
        (fun c hcx => (fmtInt_good z c hcx).1))]
    exact mapM_map_eq_some parseNum fmtInt (fun z => ((z : Int) : Rat)) (a :: as)
      (fun z _ => parseNum_fmtInt z)

/-- The records written by `savetxt` with terminator `d` are exactly the
formatted rows, provided no field contains `d`. -/
theorem recordsOf_outputList (fmtNum : Int → List Char) (d : Char)
    (m : List (List Int)) (h : ∀ r ∈ m, d ∉ rowChars fmtNum r) :
    recordsOf d (outputList fmtNum [d] m) = m.map (rowChars fmtNum) := by
  unfold recordsOf outputList splitOnChar
  have hmap : m.map (fun r => rowChars fmtNum r ++ [d]) =
      (m.map (rowChars fmtNum)).map (fun xs => xs ++ [d]) := by
    rw [List.map_map]
    rfl
  rw [hmap, splitOnP_join_terminated (fun x => x = d) d (by simp)
    (m.map (rowChars fmtNum)) (by
      intro xs hxs c hcx
      obtain ⟨r, hr, rfl⟩ := List.mem_map.mp hxs
      simp only [decide_eq_true_eq]
      intro hcd
      exact h r hr (hcd ▸ hcx))]
  exact List.dropLast_concat

/-! ## Dispatcher lemmas -/

theorem splitOnChar_key (k v : List Char) (hk : ∀ c ∈ k, c ≠ '=') :
    splitOnChar '=' (k ++ '=' :: v) = k :: splitOnChar '=' v :=
  splitOnP_append_sep _ '=' (by simp) k v (by intro c hc; simp [hk c hc])

/-- Once stdin has been drained, the fill loop coerces the empty string
into every remaining slot. -/
theorem fillAux_consumed (kinds : List CoercerKind)
    (fetch : List Char → Option (List Char)) (lines : List (List Char)) :
    ∀ (fuel pos : Nat) (args : List Value),
      fillAux kinds fetch false lines fuel pos args true =
        fillFromEmpty kinds fetch fuel pos args := by
  intro fuel
  induction fuel with
  | zero => intro pos args; rfl
  | succ fuel ih =>
    intro pos args
    simp only [fillAux, fillFromEmpty, Bool.false_eq_true, if_false]
    cases hk : kinds[pos]? with
    | none => rfl
    | some k =>
      simp only [if_true]
      rw [show joinSep [';'] ([] : List (List Char)) = [] from rfl]
      cases hc : applyCoercer fetch k [] with
      | none => rfl
      | some v => exact ih (pos + 1) (args ++ [v])

theorem dispatchArgs_pos (schema : Schema) (fetch : List Char → Option (List Char))
    (atty : Bool) (lines tokens : List (List Char)) (kinds : List CoercerKind)
    (hpos : lookupA schema "" = some (.pos kinds)) :
    dispatchArgs schema fetch atty lines tokens =
      match procTokens schema kinds fetch tokens 0 [] [] with
      | .stop c => .err c
      | .cont pos args kwargs =>
        match fillAux kinds fetch atty lines (kinds.length - args.length) pos args false with
        | Sum.inr c => .err c
        | Sum.inl args2 => .ok args2 kwargs := by
  unfold dispatchArgs
  rw [hpos]

theorem procTokens_nil (schema : Schema) (kinds : List CoercerKind)
    (fetch : List Char → Option (List Char)) (pos : Nat) (args : List Value)
    (kwargs : List (String × Value)) :
    procTokens schema kinds fetch [] pos args kwargs = .cont pos args kwargs := rfl

theorem procTokens_cons (schema : Schema) (kinds : List CoercerKind)
    (fetch : List Char → Option (List Char)) (t : List Char) (ts : List (List Char))
    (pos : Nat) (args : List Value) (kwargs : List (String × Value)) :
    procTokens schema kinds fetch (t :: ts) pos args kwargs =
      match splitOnChar '=' t with
      | [] => .stop E_FAILED
      | [_] =>
        match kinds[pos]? with
        | none => .stop E_INVALID
        | some k =>
          match applyCoercer fetch k t with
          | none => .stop E_FAILED
          | some v => procTokens schema kinds fetch ts (pos + 1) (args ++ [v]) kwargs
      | k :: v1 :: _ =>
        match lookupA schema (String.mk k) with
        | none => .stop E_FAILED
        | some ent =>
          match applyEntry fetch ent v1 with
          | none => .stop E_FAILED
          | some v =>
            procTokens schema kinds fetch ts pos args (assocSet kwargs (String.mk k) v) := rfl

theorem fillAux_zero (kinds : List CoercerKind) (fetch : List Char → Option (List Char))
    (atty : Bool) (lines : List (List Char)) (pos : Nat) (args : List Value)
    (consumed : Bool) :
    fillAux kinds fetch atty lines 0 pos args consumed = Sum.inl args := rfl

theorem fillAux_step (kinds : List CoercerKind) (fetch : List Char → Option (List Char))
    (atty : Bool) (lines : List (List Char)) (fuel pos : Nat) (args : List Value)
    (consumed : Bool) :
    fillAux kinds fetch atty lines (fuel + 1) pos args consumed =
      if atty then Sum.inr E_INVALID
      else
        match kinds[pos]? with
        | none => Sum.inr E_FAILED
        | some k =>
          match applyCoercer fetch k (joinSep [';'] (if consumed then [] else lines)) with
          | none => Sum.inr E_FAILED
          | some v => fillAux kinds fetch atty lines fuel (pos + 1) (args ++ [v]) true := rfl

/-! ## The claims -/

/-- C1: the claim says a universal keyword token such as `axis=0` on a
ufunc-style command like `add` is coerced with the universal coercer
(`intlist` for `axis`, per the `UFUNC` table) and passed through as a
keyword argument "rather than failing".  The code instead looks the
keyword up with `function[spec[0]]` (line 1249), and the universal names
are not keys of the command's schema dict (they sit inside the `"**"`
entry), so the lookup raises `KeyError`, the blanket handler at line 1267
reports a generic failure (`E_FAILED`), and the callable is never
invoked — even though the `UFUNC` coercer table and the help text
advertise these keywords.  This theorem evaluates the code at the failing
input `add '1;2' '3;4' axis=0`. -/
theorem claim1_universal_keyword_keyerror :
    schemaOf "add" = some addSchema
    ∧ "axis" ∈ UKEYS
    ∧ lookupA UFUNC "axis" = some CoercerKind.intlist
    ∧ lookupA addSchema "axis" = none
    ∧ dispatchArgs addSchema noFetch true []
        ["1;2".data, "3;4".data, "axis=0".data] = .err E_FAILED
    ∧ E_FAILED ≠ E_OK := by
  refine ⟨by decide, by decide, by decide, by decide, by decide, by decide⟩

/-- C2, counterexample: for the unknown keyword `foo` on `add`, the claim
predicts an `ArgumentError` with the invalid-argument exit code
(`E_INVALID` = 4); the code exits with the generic-failure code
(`E_FAILED` = 2) because the `KeyError` from `function["foo"]` is caught
by the blanket handler, not by an explicit argument check. -/
theorem claim2_counterexample :
    schemaOf "add" = some addSchema
    ∧ lookupA addSchema "foo" = none
    ∧ "foo" ∉ UKEYS
    ∧ dispatchArgs addSchema noFetch true [] ["foo=1".data] = .err E_FAILED
    ∧ E_FAILED ≠ E_INVALID := by
  refine ⟨by decide, by decide, by decide, by decide, by decide⟩

/-- C2, amended: for every command with a fixed-positional schema and a
`k=v` token whose keyword `k` is not a key of that schema (in particular
not a declared keyword; universal names are not keys either, see C1),
dispatch fails with the GENERIC-FAILURE exit code `E_FAILED` — not the
invalid-argument code — and the underlying library callable is never
invoked (the `.err` result means `main` never reaches the call). -/
theorem claim2_amended_unknown_keyword_fails (schema : Schema)
    (kinds : List CoercerKind) (fetch : List Char → Option (List Char))
    (atty : Bool) (lines : List (List Char)) (k v : List Char)
    (ts : List (List Char))
    (hk : ∀ c ∈ k, c ≠ '=')
    (hpos : lookupA schema "" = some (.pos kinds))
    (hlk : lookupA schema (String.mk k) = none) :
    dispatchArgs schema fetch atty lines ((k ++ '=' :: v) :: ts) = .err E_FAILED := by
  obtain ⟨w, ws, hw⟩ :=
    List.exists_cons_of_ne_nil (splitOnP_ne_nil (fun x => x = '=') v)
  rw [dispatchArgs_pos schema fetch atty lines _ kinds hpos, procTokens_cons,
    splitOnChar_key k v hk]
  rw [show splitOnChar '=' v = w :: ws from hw]
  simp only [hlk]

/-- Witness for the amended C2 at the concrete input `add foo=1`. -/
theorem claim2_amended_unknown_keyword_fails_witness :
    dispatchArgs addSchema noFetch true [] [("foo".data ++ '=' :: "1".data)] =
      .err E_FAILED :=
  claim2_amended_unknown_keyword_fails addSchema [.matrix, .matrix] noFetch true []
    "foo".data "1".data [] (by decide) (by decide) (by decide)

/-- C3: the claim says `help <unknown>` fails with `NotFoundError` and exit
code `E_NOTFOUND`.  In the code the guard is dead
(`if name in functions.keys(): if not name in functions.keys(): error(...)`,
lines 1115-1117), so an unknown name falls into the general-usage branch:
the command list is filtered by the name used as a regex pattern (here,
nothing matches `foo`) and `main` exits `E_OK` (line 1211).  The second
half of the claim holds: `help` with no argument lists every schema
command (pattern `'.*'`) and exits `E_OK`.  This theorem evaluates both. -/
theorem claim3_help_unknown_exits_ok :
    isKnown "foo" = false
    ∧ runHelpCmd ["foo"] = (E_OK, .listing [])
    ∧ E_OK ≠ E_NOTFOUND
    ∧ runHelpCmd [] = (E_OK, .listing (functions.map Prod.fst))
    ∧ ∀ name ∈ functions.map Prod.fst, name ∈ helpCommandNames ".*".data := by
  refine ⟨by decide, by decide, by decide, by decide, by decide⟩

/-- C4: a command declaring exactly one positional argument, invoked with
no tokens.  On an interactive terminal (`atty = true`) dispatch fails with
`E_INVALID` ("missing positional argument") — for EVERY stdin content,
i.e. without reading it.  On a non-interactive stdin, all of stdin is
read, joined with the row separator `';'`, and coerced with the
positional's coercer into the missing slot. -/
theorem claim4_stdin_fallback (schema : Schema) (c : CoercerKind)
    (fetch : List Char → Option (List Char)) (lines : List (List Char))
    (hpos : lookupA schema "" = some (.pos [c])) :
    dispatchArgs schema fetch true lines [] = .err E_INVALID
    ∧ ∀ v, applyCoercer fetch c (joinSep [';'] lines) = some v →
        dispatchArgs schema fetch false lines [] = .ok [v] [] := by
  constructor
  · rw [dispatchArgs_pos schema fetch true lines [] [c] hpos, procTokens_nil]
    simp only [List.length_cons, List.length_nil, Nat.sub_zero]
    rw [show (1 : Nat) = 0 + 1 from rfl, fillAux_step]
    simp
  · intro v hv
    rw [dispatchArgs_pos schema fetch false lines [] [c] hpos, procTokens_nil]
    simp only [List.length_cons, List.length_nil, Nat.sub_zero]
    rw [show (1 : Nat) = 0 + 1 from rfl, fillAux_step]
    simp only [Bool.false_eq_true, if_false]
    rw [show ([c][0]? : Option CoercerKind) = some c from rfl]
    simp only [hv, fillAux_zero, List.nil_append]

/-- Witness for C4 on `transpose` with piped stdin `1,2;3,4`: the
interactive invocation errors with `E_INVALID`; the piped invocation
coerces stdin into the matrix slot. -/
theorem claim4_stdin_fallback_witness :
    dispatchArgs transposeSchema noFetch true ["1,2;3,4\n".data] [] = .err E_INVALID
    ∧ dispatchArgs transposeSchema noFetch false ["1,2;3,4\n".data] [] =
        .ok [Value.matrix [[1, 2], [3, 4]]] [] :=
  ⟨(claim4_stdin_fallback transposeSchema .matrix noFetch ["1,2;3,4\n".data]
      (by decide)).1,
   (claim4_stdin_fallback transposeSchema .matrix noFetch ["1,2;3,4\n".data]
      (by decide)).2 (Value.matrix [[1, 2], [3, 4]]) (by decide)⟩

/-- C5, counterexample: the claim says the piped stdin content fills EVERY
missing positional slot, so that a command with two or more missing
positionals can be completed from stdin.  In the code each loop iteration
calls `sys.stdin.readlines()` again (line 1255), which returns nothing
after the first call: with stdin `1,2;3,4` piped, `matlib.repmat` (three
positionals) fails — its second slot coerces `int("")`, which raises —
and `add` (two matrix positionals) receives the empty 1×0 matrix
`matrix("")` in its second slot, not the stdin matrix that the claim
predicts (last conjunct: the stdin content coerces to `[[1,2],[3,4]]`,
which is not what slot two received). -/
theorem claim5_counterexample :
    schemaOf "matlib.repmat" = some repmatSchema
    ∧ dispatchArgs repmatSchema noFetch false ["1,2;3,4\n".data] [] = .err E_FAILED
    ∧ schemaOf "add" = some addSchema
    ∧ dispatchArgs addSchema noFetch false ["1,2;3,4\n".data] [] =
        .ok [Value.matrix [[1, 2], [3, 4]], Value.matrix [[]]] []
    ∧ Value.matrix [[]] ≠ Value.matrix [[1, 2], [3, 4]]
    ∧ applyCoercer noFetch .matrix (joinSep [';'] ["1,2;3,4\n".data]) =
        some (Value.matrix [[1, 2], [3, 4]]) := by
  refine ⟨by decide, by decide, by decide, by decide, by decide, by decide⟩

/-- C5, amended: with stdin not interactive and at least one positional
still missing, the FIRST missing slot is coerced from all of stdin joined
with `';'`; every LATER missing slot is coerced from the empty string,
because stdin is already exhausted (`fillFromEmpty`).  A command with two
or more missing positionals therefore cannot be completed from piped
stdin content. -/
theorem claim5_amended_fill_first_slot_only (kinds : List CoercerKind)
    (fetch : List Char → Option (List Char)) (lines : List (List Char))
    (fuel pos : Nat) (args : List Value) (c : CoercerKind)
    (hc : kinds[pos]? = some c) :
    fillAux kinds fetch false lines (fuel + 1) pos args false =
      match applyCoercer fetch c (joinSep [';'] lines) with
      | none => Sum.inr E_FAILED
      | some v => fillFromEmpty kinds fetch fuel (pos + 1) (args ++ [v]) := by
  rw [fillAux_step]
  simp only [Bool.false_eq_true, if_false, hc]
  cases h : applyCoercer fetch c (joinSep [';'] lines) with
  | none => rfl
  | some v => exact fillAux_consumed kinds fetch lines fuel (pos + 1) (args ++ [v])

/-- Witness for the amended C5 on `add`'s positional kinds with piped
stdin `1,2;3,4`: the two missing slots are filled by one stdin coercion
followed by empty-string coercions. -/
theorem claim5_amended_fill_first_slot_only_witness :
    fillAux [.matrix, .matrix] noFetch false ["1,2;3,4\n".data] (1 + 1) 0 [] false =
      match applyCoercer noFetch .matrix (joinSep [';'] ["1,2;3,4\n".data]) with
      | none => Sum.inr E_FAILED
      | some v => fillFromEmpty [.matrix, .matrix] noFetch 1 (0 + 1) ([] ++ [v]) :=
  claim5_amended_fill_first_slot_only [.matrix, .matrix] noFetch
    ["1,2;3,4\n".data] 1 0 [] .matrix (by decide)

/-- C6, counterexample: the claim says ONE trailing row separator is
trimmed before the direct parse.  The source's `a.rstrip(";")` (line 73)
trims ALL trailing `';'`: on the token `1;2;;` the code parses `1;2`
directly and returns `[[1],[2]]`, while the claim's one-trim reading
leaves `1;2;`, whose parse fails (ragged empty row), and would therefore
treat the token as a URL — so the two readings disagree on this token. -/
theorem claim6_counterexample :
    matrixCoerce noFetch "1;2;;".data = some [[1], [2]]
    ∧ trimOneSemi "1;2;;".data = "1;2;".data
    ∧ convertFromString (trimOneSemi "1;2;;".data) = none
    ∧ matrixCoerceSpecOne noFetch "1;2;;".data = none
    ∧ matrixCoerce noFetch "1;2;;".data ≠ matrixCoerceSpecOne noFetch "1;2;;".data := by
  refine ⟨by decide, by decide, by decide, by decide, by decide⟩

/-- C6, amended: the matrix coercer first attempts to parse the token
itself with ALL trailing row separators `';'` trimmed and returns that
matrix — in which case the fetch environment is never consulted (the
result is the same under every fetch) — and only if that parse fails does
it treat the token as a URL, fetch it, and parse the fetched content. -/
theorem claim6_amended_direct_parse_first
    (fetch : List Char → Option (List Char)) (a : List Char) :
    (∀ m, convertFromString (rstripSemis a) = some m →
        matrixCoerce fetch a = some m
        ∧ ∀ g, matrixCoerce g a = some m)
    ∧ (convertFromString (rstripSemis a) = none →
        matrixCoerce fetch a = (fetch a).bind convertFromString) := by
  constructor
  · intro m hm
    constructor
    · unfold matrixCoerce
      rw [hm]
    · intro g
      unfold matrixCoerce
      rw [hm]
  · intro hn
    unfold matrixCoerce
    rw [hn]

/-- Witness for the amended C6 on the token `1,2;3,4;` (trailing separator
trimmed, direct parse succeeds): the result is the parsed matrix, and a
fetch environment that would return content is ignored. -/
theorem claim6_amended_direct_parse_first_witness :
    matrixCoerce noFetch "1,2;3,4;".data = some [[1, 2], [3, 4]]
    ∧ matrixCoerce fetchNine "1,2;3,4;".data = some [[1, 2], [3, 4]] :=
  ⟨((claim6_amended_direct_parse_first noFetch "1,2;3,4;".data).1
      [[1, 2], [3, 4]] (by decide)).1,
   ((claim6_amended_direct_parse_first noFetch "1,2;3,4;".data).1
      [[1, 2], [3, 4]] (by decide)).2 fetchNine⟩

/-- C7: round-trip.  For a well-formed matrix literal (one the matrix
coercer parses, with integer-valued entries small enough that the `%.8g`
number format prints them exactly), formatting the coerced matrix with
the default comma delimiter and newline terminator produces text whose
records parse back to exactly the same numeric rows. -/
theorem claim7_roundtrip (fetch : List Char → Option (List Char)) (s : List Char)
    (m : List (List Int))
    (h1 : matrixCoerce fetch s =
      some (m.map (fun r => r.map (fun z => ((z : Int) : Rat)))))
    (h2 : ∀ r ∈ m, ∀ z ∈ r, z.natAbs < 10 ^ 8) :
    (recordsOf '\n' (outputList fmtInt defaultConfig.newline m)).mapM parseRowM
      = some (m.map (fun r => r.map (fun z => ((z : Int) : Rat)))) := by
  have hfree : ∀ r ∈ m, '\n' ∉ rowChars fmtInt r := by
    intro r _ hmem
    rcases mem_rowChars fmtInt r '\n' hmem with h | ⟨z, _, hz⟩
    · exact absurd h (by decide)
    · exact absurd rfl (fmtInt_good z '\n' hz).2.2.2
  rw [show defaultConfig.newline = ['\n'] from rfl,
    recordsOf_outputList fmtInt '\n' m hfree]
  exact mapM_map_eq_some parseRowM (rowChars fmtInt)
    (fun r => r.map (fun z => ((z : Int) : Rat))) m
    (fun r _ => parseRowM_rowChars r)

/-- Witness for C7 on the literal `1,2;3,4`. -/
theorem claim7_roundtrip_witness :
    (recordsOf '\n' (outputList fmtInt defaultConfig.newline [[1, 2], [3, 4]])).mapM
        parseRowM
      = some ([[1, 2], [3, 4]].map (fun r => r.map (fun z => ((z : Int) : Rat)))) :=
  claim7_roundtrip noFetch "1,2;3,4".data [[1, 2], [3, 4]] (by decide) (by decide)

/-- C8, counterexample: the claim says a `k=v` token is split ONCE on the
first `=` and the whole remainder is passed to the coercer.  The code
does `arg.split("=")` with no limit (line 1241) and passes only
`spec[1]` (line 1250): on `savetxt out 1 header=a=b`, the `header`
keyword receives `"a"`, not `"a=b"` — the `=b` tail is silently
discarded. -/
theorem claim8_counterexample :
    schemaOf "savetxt" = some savetxtSchema
    ∧ dispatchArgs savetxtSchema noFetch true []
        ["out".data, "1".data, "header=a=b".data]
      = .ok [Value.str "out".data, Value.matrix [[1]]]
          [("header", Value.str "a".data)]
    ∧ Value.str "a".data ≠ Value.str "a=b".data := by
  refine ⟨by decide, by decide, by decide⟩

/-- C8, amended: a keyword token is split on EVERY `=`; the first segment
is the keyword name, the SECOND segment alone is coerced and recorded as
the keyword's value, and all later segments are silently discarded. -/
theorem claim8_amended_second_segment_only (schema : Schema)
    (kinds : List CoercerKind) (fetch : List Char → Option (List Char))
    (ts : List (List Char)) (pos : Nat) (args : List Value)
    (kwargs : List (String × Value)) (k v1 rest : List Char)
    (c : CoercerKind) (val : Value)
    (hk : ∀ ch ∈ k, ch ≠ '=') (hv : ∀ ch ∈ v1, ch ≠ '=')
    (hlk : lookupA schema (String.mk k) = some (.kw c))
    (hco : applyCoercer fetch c v1 = some val) :
    procTokens schema kinds fetch ((k ++ '=' :: (v1 ++ '=' :: rest)) :: ts)
        pos args kwargs
      = procTokens schema kinds fetch ts pos args
          (assocSet kwargs (String.mk k) val) := by
  rw [procTokens_cons, splitOnChar_key k (v1 ++ '=' :: rest) hk,
    splitOnChar_key v1 rest hv]
  simp only [hlk, applyEntry, hco]

/-- Witness for the amended C8 at `savetxt`'s `header=a=b` token. -/
theorem claim8_amended_second_segment_only_witness :
    procTokens savetxtSchema [.str, .matrix] noFetch
        [("header".data ++ '=' :: ("a".data ++ '=' :: "b".data))] 0 [] []
      = procTokens savetxtSchema [.str, .matrix] noFetch [] 0 []
          (assocSet [] (String.mk "header".data) (Value.str "a".data)) :=
  claim8_amended_second_segment_only savetxtSchema [.str, .matrix] noFetch
    [] 0 [] [] "header".data "a".data "b".data .str (Value.str "a".data)
    (by decide) (by decide) (by decide) (by decide)

/-- C9: activating the flatten flag only changes the record terminator of
the output from newline to semicolon: under either terminator, the
records are exactly the same formatted rows — the same field values
rendered with the same number format, joined with the same comma
delimiter.  The hypothesis states that the number format emits neither
terminator character (true of `%.8g` output, and proved above for its
integer case `fmtInt`). -/
theorem claim9_flatten_only_terminator (fmtNum : Int → List Char)
    (m : List (List Int))
    (hf : ∀ z ∈ m.flatten, ';' ∉ fmtNum z ∧ '\n' ∉ fmtNum z) :
    recordsOf ';' (outputList fmtNum (applyFlattenFlag defaultConfig).newline m)
      = m.map (rowChars fmtNum)
    ∧ recordsOf '\n' (outputList fmtNum defaultConfig.newline m)
      = m.map (rowChars fmtNum) := by
  have hs : ∀ r ∈ m, ';' ∉ rowChars fmtNum r := by
    intro r hr hmem
    rcases mem_rowChars fmtNum r ';' hmem with h | ⟨z, hz, hcz⟩
    · exact absurd h (by decide)
    · exact (hf z (List.mem_flatten.mpr ⟨r, hr, hz⟩)).1 hcz
  have hn : ∀ r ∈ m, '\n' ∉ rowChars fmtNum r := by
    intro r hr hmem
    rcases mem_rowChars fmtNum r '\n' hmem with h | ⟨z, hz, hcz⟩
    · exact absurd h (by decide)
    · exact (hf z (List.mem_flatten.mpr ⟨r, hr, hz⟩)).2 hcz
  constructor
  · rw [show (applyFlattenFlag defaultConfig).newline = [';'] from rfl]
    exact recordsOf_outputList fmtNum ';' m hs
  · rw [show defaultConfig.newline = ['\n'] from rfl]
    exact recordsOf_outputList fmtNum '\n' m hn

/-- Witness for C9 on the matrix `[[1,-2],[3,4]]` with the `%.8g` integer
format. -/
theorem claim9_flatten_only_terminator_witness :
    recordsOf ';'
        (outputList fmtInt (applyFlattenFlag defaultConfig).newline [[1, -2], [3, 4]])
      = [[1, -2], [3, 4]].map (rowChars fmtInt)
    ∧ recordsOf '\n' (outputList fmtInt defaultConfig.newline [[1, -2], [3, 4]])
      = [[1, -2], [3, 4]].map (rowChars fmtInt) :=
  claim9_flatten_only_terminator fmtInt [[1, -2], [3, 4]] (by decide)

/-- C10: `help <name>` for a KNOWN command rebinds `sys.stderr` to
`sys.stdout` (line 1118) before printing, so every later diagnostic of
the invocation — warnings (when enabled), error messages (when not
quiet), debug messages (when enabled) — is appended to standard output,
and standard error receives nothing. -/
theorem claim10_help_redirects_stderr (docOf : String → List Char)
    (name : String) (p : Proc) (cfg : Config)
    (h : isKnown name = true) :
    (helpRun docOf name p).errIsOut = true
    ∧ (∀ msg, cfg.warning = true →
        (warningMsg cfg (helpRun docOf name p) msg).out
          = (helpRun docOf name p).out ++ [msg]
        ∧ (warningMsg cfg (helpRun docOf name p) msg).err
          = (helpRun docOf name p).err)
    ∧ (∀ msg, cfg.quiet = false →
        (errorMsg cfg (helpRun docOf name p) msg).out
          = (helpRun docOf name p).out ++ [msg]
        ∧ (errorMsg cfg (helpRun docOf name p) msg).err
          = (helpRun docOf name p).err)
    ∧ (∀ msg, cfg.debug = true →
        (debugMsg cfg (helpRun docOf name p) msg).out
          = (helpRun docOf name p).out ++ [msg]
        ∧ (debugMsg cfg (helpRun docOf name p) msg).err
          = (helpRun docOf name p).err) := by
  have hrun : helpRun docOf name p = helpKnown docOf name p := by
    unfold helpRun
    rw [h]
    simp
  have hflag : (helpKnown docOf name p).errIsOut = true := rfl
  rw [hrun]
  refine ⟨rfl, ?_, ?_, ?_⟩
  · intro msg hw
    unfold warningMsg printErrStream
    rw [hw]
    simp [hflag]
  · intro msg hq
    unfold errorMsg printErrStream
    rw [hq]
    simp [hflag]
  · intro msg hd
    unfold debugMsg printErrStream
    rw [hd]
    simp [hflag]

/-- Witness for C10: `help add` with warnings on. -/
theorem claim10_help_redirects_stderr_witness :
    isKnown "add" = true
    ∧ (helpRun docNone "add" procInit).errIsOut = true
    ∧ (warningMsg defaultConfig (helpRun docNone "add" procInit) "w".data).out
        = (helpRun docNone "add" procInit).out ++ ["w".data]
    ∧ (warningMsg defaultConfig (helpRun docNone "add" procInit) "w".data).err
        = (helpRun docNone "add" procInit).err :=
  ⟨by decide,
   (claim10_help_redirects_stderr docNone "add" procInit defaultConfig (by decide)).1,
   ((claim10_help_redirects_stderr docNone "add" procInit defaultConfig
       (by decide)).2.1 "w".data rfl).1,
   ((claim10_help_redirects_stderr docNone "add" procInit defaultConfig
       (by decide)).2.1 "w".data rfl).2⟩
